import Mathlib

/-!
# Shallow embedding of the gohue action/gradient engine

This file embeds the core of the `keep94/gohue` repository in Lean 4:

* `src/hue.go` — the color model (`Color`, `NewColor`, `Blend`,
  `MaybeColor`) and `LightProperties`;
* `src/actions/actions.go` — the action/gradient engine
  (`ColorDuration`, `Gradient`, `Action`, `AsTask`/`asTask`,
  `doOnOff`, `doGradient`, `multiSet`, `fixError`,
  `maybeBlendColor`, `maybeBlendBrightness`).

Modelling conventions:

* Go `float64` arithmetic is modelled over `ℚ`.  All float computations
  in the embedded code (fixed-point quantization with scale 10000,
  convex blends, the gradient `ratio`) are simple rational expressions;
  the claims under study are stated over the same rational values.
  Go's float-to-unsigned conversions (defined only for in-range values)
  are modelled as `Int.toNat ∘ Int.floor` without wraparound.
  Go float division by zero (which would yield NaN/Inf) is modelled by
  `ℚ` division, where `q / 0 = 0`; no claim exercises that case.
* Go `time.Duration` (an `int64` nanosecond count) is modelled as `ℤ`.
* The `maybe` package (external dependency) provides `maybe.Uint8`,
  `maybe.Bool`, `maybe.Uint16`: a value plus a `Valid` flag whose
  `Clear` zeroes the value, exactly like `gohue.MaybeColor` in
  `src/hue.go`.  They are modelled as value/valid structures.
* The `tasks` package (external dependency, contracts in spec §4.3/§6)
  provides the clock, suspension and series/parallel/repeat
  combinators.  Its pieces are modelled from the spec where needed and
  are marked `Modelled from the spec:` in their doc comments.
* A `Setter` is modelled as a pure function from light id and
  properties to a raw response and an optional Go error.  Errors with
  distinguished identity in the source (`gohue.NoSuchResourceError`,
  `gohue.GeneralError`) are constructors of `GoError`; any other error
  value is `GoError.custom n`.
* The clock/suspend runtime is modelled as a function from suspension
  index, current time, and requested duration to `Option ℤ`: the new
  current time, or `none` when the suspension reports cancellation.
-/

/-- `maxu16` from `src/hue.go`: the fixed-point scale 10000. -/
def maxu16 : ℚ := 10000

/-- `Color` from `src/hue.go`: two chromaticity coordinates stored as
uint16 fixed-point with scale 10000. -/
structure Color where
  x : ℕ
  y : ℕ
  deriving DecidableEq, Repr

instance : Inhabited Color := ⟨⟨0, 0⟩⟩

/-- `NewColor` from `src/hue.go`:
`Color{x: uint16(x*maxu16 + 0.5), y: uint16(y*maxu16 + 0.5)}`. -/
def NewColor (x y : ℚ) : Color :=
  ⟨(⌊x * maxu16 + 1/2⌋).toNat, (⌊y * maxu16 + 1/2⌋).toNat⟩

/-- `Color.X` from `src/hue.go`: `float64(c.x) / maxu16`. -/
def Color.X (c : Color) : ℚ := (c.x : ℚ) / maxu16

/-- `Color.Y` from `src/hue.go`: `float64(c.y) / maxu16`. -/
def Color.Y (c : Color) : ℚ := (c.y : ℚ) / maxu16

/-- `Color.Blend` from `src/hue.go`:
`NewColor(c.X()*invratio + other.X()*ratio, c.Y()*invratio + other.Y()*ratio)`
with `invratio = 1 - ratio`. -/
def Color.Blend (c other : Color) (ratio : ℚ) : Color :=
  NewColor (c.X * (1 - ratio) + other.X * ratio)
           (c.Y * (1 - ratio) + other.Y * ratio)

/-- `MaybeColor` from `src/hue.go`: an embedded `Color` plus a `Valid`
flag; the zero value is nothing. -/
structure MaybeColor where
  color : Color
  valid : Bool
  deriving DecidableEq, Repr

instance : Inhabited MaybeColor := ⟨⟨default, false⟩⟩

/-- `NewMaybeColor` from `src/hue.go`. -/
def NewMaybeColor (c : Color) : MaybeColor := ⟨c, true⟩

/-- `MaybeColor.Clear` from `src/hue.go`: zeroes the color and the flag. -/
def MaybeColor.Clear : MaybeColor := ⟨⟨0, 0⟩, false⟩

/-- `maybe.Uint8` from the external `maybe` package: a `uint8` value
plus a `Valid` flag; the zero value is nothing. -/
structure MaybeUint8 where
  value : ℕ
  valid : Bool
  deriving DecidableEq, Repr

instance : Inhabited MaybeUint8 := ⟨⟨0, false⟩⟩

/-- `maybe.NewUint8`. -/
def NewUint8 (v : ℕ) : MaybeUint8 := ⟨v, true⟩

/-- `maybe.Bool`: a `bool` value plus a `Valid` flag. -/
structure MaybeBool where
  value : Bool
  valid : Bool
  deriving DecidableEq, Repr

instance : Inhabited MaybeBool := ⟨⟨false, false⟩⟩

/-- `maybe.NewBool` / `maybe.Bool.Set`. -/
def MaybeBool.set (b : Bool) : MaybeBool := ⟨b, true⟩

/-- `maybe.Bool.Clear`: zero value and flag (mirrors `MaybeColor.Clear`). -/
def MaybeBool.cleared : MaybeBool := ⟨false, false⟩

/-- `maybe.Uint16`: a `uint16` value plus a `Valid` flag. -/
structure MaybeUint16 where
  value : ℕ
  valid : Bool
  deriving DecidableEq, Repr

instance : Inhabited MaybeUint16 := ⟨⟨0, false⟩⟩

/-- `LightProperties` from `src/hue.go`: independently-optional color,
brightness, on/off and transition time. -/
structure LightProperties where
  C : MaybeColor
  Bri : MaybeUint8
  On : MaybeBool
  TransitionTime : MaybeUint16
  deriving DecidableEq, Repr

/-- The Go zero value of `LightProperties` (`var properties LightProperties`). -/
def emptyProps : LightProperties := ⟨⟨⟨0, 0⟩, false⟩, ⟨0, false⟩, ⟨false, false⟩, ⟨0, false⟩⟩

instance : Inhabited LightProperties := ⟨emptyProps⟩

/-- A Go `error` value as seen by the actions package.  The source
compares error identity against `gohue.NoSuchResourceError`; the other
distinguished value is `gohue.GeneralError`; `custom n` stands for any
other error value (for example a test's private error). -/
inductive GoError where
  | noSuchResource
  | general
  | custom (n : ℕ)
  deriving DecidableEq, Repr

/-- The error values a task created from an `Action` can report
(`src/actions/actions.go`): a structured `NoSuchLightIdError` carrying
the offending light id and the raw bridge response, or an error created
by `errors.New(string(rawResponse))` carrying only the message. -/
inductive ActionError where
  | noSuchLightId (lightId : ℤ) (rawResponse : String)
  | plain (msg : String)
  deriving DecidableEq, Repr

/-- `kInvalidLightIdBytes` from `src/actions/actions.go`. -/
def kInvalidLightIdBytes : String := "Invalid light id"

/-- `fixError` from `src/actions/actions.go`:
wrap `gohue.NoSuchResourceError` into `NoSuchLightIdError{lightId, raw}`,
anything else into `errors.New(string(rawResponse))`. -/
def fixError (lightId : ℤ) (rawResponse : String) (err : GoError) : ActionError :=
  match err with
  | .noSuchResource => .noSuchLightId lightId rawResponse
  | _ => .plain rawResponse

/-- The `Setter` capability (`src/actions/actions.go`):
`Set(lightId, properties) -> (response, err)`, modelled as a pure
function.  `none` for the error component means the call succeeded. -/
def Setter : Type := ℤ → LightProperties → String × Option GoError

/-- One recorded `Setter.Set` call: the target light id, the patch that
was passed, and the execution clock's time at the call. -/
structure Request where
  lightId : ℤ
  props : LightProperties
  time : ℤ
  deriving DecidableEq, Repr

instance : Inhabited Request := ⟨⟨0, default, 0⟩⟩

/-- The non-empty-list loop of `multiSet` from `src/actions/actions.go`:
dispatch to each id in order; id 0 aborts with
`fixError(0, kInvalidLightIdBytes, gohue.NoSuchResourceError)` before
calling the Setter; a failing `Set` aborts with
`fixError(light, resp, err)`. -/
def multiSetLoop (setter : Setter) (lights : List ℤ)
    (props : LightProperties) (t : ℤ) : List Request × Option ActionError :=
  match lights with
  | [] => ([], none)
  | light :: rest =>
    if light = 0 then
      ([], some (fixError 0 kInvalidLightIdBytes GoError.noSuchResource))
    else
      match setter light props with
      | (resp, some err) => ([⟨light, props, t⟩], some (fixError light resp err))
      | (_, none) =>
        let r := multiSetLoop setter rest props t
        (⟨light, props, t⟩ :: r.1, r.2)

/-- `multiSet` from `src/actions/actions.go`: empty target list means
one broadcast `Set(0, properties)`; otherwise dispatch to each id in
list order via `multiSetLoop`.  Returns the `Setter` calls made and the
error passed to `e.SetError` (if any). -/
def multiSet (setter : Setter) (lights : List ℤ)
    (props : LightProperties) (t : ℤ) : List Request × Option ActionError :=
  match lights with
  | [] =>
    match setter 0 props with
    | (resp, some err) => ([⟨0, props, t⟩], some (fixError 0 resp err))
    | (_, none) => ([⟨0, props, t⟩], none)
  | _ => multiSetLoop setter lights props t

/-- `maybeBlendColor` from `src/actions/actions.go`: genuine blend when
both operands are valid, else the first operand unchanged. -/
def maybeBlendColor (first second : MaybeColor) (ratio : ℚ) : MaybeColor :=
  if first.valid && second.valid then
    NewMaybeColor (first.color.Blend second.color ratio)
  else first

/-- `maybeBlendBrightness` from `src/actions/actions.go`:
`uint8((1.0-ratio)*float64(first.Value) + ratio*float64(second.Value) + 0.5)`
when both operands are valid, else the first operand unchanged. -/
def maybeBlendBrightness (first second : MaybeUint8) (ratio : ℚ) : MaybeUint8 :=
  if first.valid && second.valid then
    NewUint8 (⌊(1 - ratio) * (first.value : ℚ) + ratio * (second.value : ℚ) + 1/2⌋).toNat
  else first

/-- `ColorDuration` from `src/actions/actions.go`: optional color and
brightness at a duration into the gradient. -/
structure ColorDuration where
  C : MaybeColor
  Bri : MaybeUint8
  D : ℤ
  deriving DecidableEq, Repr

instance : Inhabited ColorDuration := ⟨⟨default, default, 0⟩⟩

/-- `Gradient` from `src/actions/actions.go`. -/
structure Gradient where
  Cds : List ColorDuration
  Refresh : ℤ
  deriving DecidableEq, Repr

/-- The clock/suspend capability (external `tasks` package, contract in
spec §6): given the index of the suspension, the current time and the
requested duration, return the time when the suspension ends, or `none`
when the suspension reports cancellation. -/
def Clock : Type := ℕ → ℤ → ℤ → Option ℤ

/-- Execution status of a task body. `out` means the step budget of the
embedding was exhausted (not a behavior of the source). -/
inductive RunStatus where
  | ok
  | failed (e : ActionError)
  | cancelled
  | panicked
  | out
  deriving DecidableEq, Repr

/-- Result of the keyframe-scanning loop of `doGradient`. -/
inductive LoopStatus where
  | out
  | failed (e : ActionError)
  | cancelled
  | done (props : LightProperties)
  deriving DecidableEq, Repr

/-- Outcome of the keyframe-scanning loop of `doGradient`: the patches
passed to `multiSet` (one entry per `multiSet` call, in order), the
`Setter` calls made, the value of `currentD` at exit, the next
suspension index, and how the loop exited. -/
structure LoopOut where
  patches : List LightProperties
  reqs : List Request
  currentD : ℤ
  k : ℕ
  status : LoopStatus
  deriving DecidableEq, Repr

/-- The `for idx < len(a.G.Cds)` loop of `doGradient`
(`src/actions/actions.go`).  State: keyframe index `idx`, elapsed time
`currentD`, the mutable `properties` record, and the suspension index
`k`.  One unit of `fuel` is spent per iteration; the source loop has no
fuel (termination is claim C10). -/
def gradLoop (setter : Setter) (clk : Clock) (g : Gradient) (lights : List ℤ)
    (startTime : ℤ) :
    (fuel : ℕ) → (idx : ℕ) → (currentD : ℤ) → (props : LightProperties) →
    (k : ℕ) → LoopOut
  | 0, _, currentD, _, k => ⟨[], [], currentD, k, .out⟩
  | fuel + 1, idx, currentD, props, k =>
    if idx < g.Cds.length then
      if currentD ≥ (g.Cds.getD idx default).D then
        gradLoop setter clk g lights startTime fuel (idx + 1) currentD props k
      else
        let first := g.Cds.getD (idx - 1) default
        let second := g.Cds.getD idx default
        let ratio : ℚ := ((currentD : ℚ) - (first.D : ℚ)) / ((second.D : ℚ) - (first.D : ℚ))
        let props1 : LightProperties :=
          { props with C := maybeBlendColor first.C second.C ratio,
                       Bri := maybeBlendBrightness first.Bri second.Bri ratio }
        let ms := multiSet setter lights props1 (startTime + currentD)
        let props2 : LightProperties := { props1 with On := MaybeBool.cleared }
        match ms.2 with
        | some e => ⟨[props1], ms.1, currentD, k, .failed e⟩
        | none =>
          match clk k (startTime + currentD) g.Refresh with
          | none => ⟨[props1], ms.1, currentD, k, .cancelled⟩
          | some t2 =>
            let r := gradLoop setter clk g lights startTime fuel idx
                       (t2 - startTime) props2 (k + 1)
            ⟨props1 :: r.patches, ms.1 ++ r.reqs, r.currentD, r.k, r.status⟩
    else ⟨[], [], currentD, k, .done props⟩

/-- Outcome of a full `doGradient` run: the patches passed to
`multiSet`, the `Setter` calls, the final `currentD`, the next
suspension index, the status, and whether the keyframe-scanning loop
exited normally (reached the final dispatch of the last keyframe). -/
structure GradOut where
  patches : List LightProperties
  reqs : List Request
  currentD : ℤ
  k : ℕ
  status : RunStatus
  loopDone : Bool
  deriving DecidableEq, Repr

/-- `Action.doGradient` from `src/actions/actions.go`: record the start
time, initialize `properties` (with `On` set when the action's `On`
flag is), run the keyframe-scanning loop from `idx = 1`, and on normal
loop exit dispatch one final patch built from the last keyframe.
`aOn` is the action's `On` field; `k0` the initial suspension index. -/
def doGradient (setter : Setter) (clk : Clock) (g : Gradient) (aOn : Bool)
    (lights : List ℤ) (startTime : ℤ) (k0 : ℕ) (fuel : ℕ) : GradOut :=
  let props0 : LightProperties :=
    if aOn then { emptyProps with On := MaybeBool.set true } else emptyProps
  let last := g.Cds.getD (g.Cds.length - 1) default
  let r := gradLoop setter clk g lights startTime fuel 1 0 props0 k0
  match r.status with
  | .out => ⟨r.patches, r.reqs, r.currentD, r.k, .out, false⟩
  | .failed e => ⟨r.patches, r.reqs, r.currentD, r.k, .failed e, false⟩
  | .cancelled => ⟨r.patches, r.reqs, r.currentD, r.k, .cancelled, false⟩
  | .done props =>
    let fprops : LightProperties := { props with C := last.C, Bri := last.Bri }
    let ms := multiSet setter lights fprops (startTime + r.currentD)
    ⟨r.patches ++ [fprops], r.reqs ++ ms.1, r.currentD, r.k,
      match ms.2 with | some e => .failed e | none => .ok, true⟩

namespace Actions

/-- `Action` from `src/actions/actions.go`: the declarative action tree.
`Series` and `Parallel` hold child actions (Go stores pointers; values
here).  Lives in the `Actions` namespace (the Go package name) because
Mathlib already declares a global `Action`. -/
inductive Action where
  | mk (Lights : List ℤ) (Repeat : ℤ) (G : Option Gradient) (C : MaybeColor)
       (Bri : MaybeUint8) (On : Bool) (Off : Bool)
       (TransitionTime : MaybeUint16) (Sleep : ℤ)
       (Series : List Action) (Parallel : List Action)

/-- The `Lights` field of an `Action`. -/
def Action.Lights : Action → List ℤ
  | .mk l _ _ _ _ _ _ _ _ _ _ => l

/-- The `Repeat` field of an `Action`. -/
def Action.Repeat : Action → ℤ
  | .mk _ r _ _ _ _ _ _ _ _ _ => r

/-- The `G` field of an `Action`. -/
def Action.G : Action → Option Gradient
  | .mk _ _ g _ _ _ _ _ _ _ _ => g

/-- The `C` field of an `Action`. -/
def Action.C : Action → MaybeColor
  | .mk _ _ _ c _ _ _ _ _ _ _ => c

/-- The `Bri` field of an `Action`. -/
def Action.Bri : Action → MaybeUint8
  | .mk _ _ _ _ b _ _ _ _ _ _ => b

/-- The `On` field of an `Action`. -/
def Action.On : Action → Bool
  | .mk _ _ _ _ _ o _ _ _ _ _ => o

/-- The `Off` field of an `Action`. -/
def Action.Off : Action → Bool
  | .mk _ _ _ _ _ _ o _ _ _ _ => o

/-- The `TransitionTime` field of an `Action`. -/
def Action.TransitionTime : Action → MaybeUint16
  | .mk _ _ _ _ _ _ _ tt _ _ _ => tt

/-- The `Sleep` field of an `Action`. -/
def Action.Sleep : Action → ℤ
  | .mk _ _ _ _ _ _ _ _ s _ _ => s

/-- The `Series` field of an `Action`. -/
def Action.Series : Action → List Action
  | .mk _ _ _ _ _ _ _ _ _ s _ => s

/-- The `Parallel` field of an `Action`. -/
def Action.Parallel : Action → List Action
  | .mk _ _ _ _ _ _ _ _ _ _ p => p

/-- Result of executing a compiled action: the `Setter` calls made, the
execution time afterwards, the next suspension index, and the status. -/
structure ExecOut where
  reqs : List Request
  time : ℤ
  k : ℕ
  status : RunStatus
  deriving DecidableEq, Repr

/-- `Action.doOnOff` from `src/actions/actions.go`: build one patch from
the node's fields (`On` wins over `Off` for the on/off field) and
dispatch it once via `multiSet`. -/
def doOnOff (setter : Setter) (a : Action) (lights : List ℤ) (t : ℤ) :
    List Request × Option ActionError :=
  let onField : MaybeBool :=
    if a.On then MaybeBool.set true
    else if a.Off then MaybeBool.set false
    else default
  multiSet setter lights ⟨a.C, a.Bri, onField, a.TransitionTime⟩ t

mutual

/-- `Action.AsTask` from `src/actions/actions.go`: run the node's
single-iteration body once when `Repeat < 2`, else repeat it `Repeat`
times.  The repetition combinator (`tasks.RepeatingTask`) is external;
see `runRepeatN`. -/
def runAction (setter : Setter) (clk : Clock) (fuel : ℕ) (a : Action)
    (lights : List ℤ) (t : ℤ) (k : ℕ) : ExecOut :=
  match fuel with
  | 0 => ⟨[], t, k, .out⟩
  | fuel + 1 =>
    if a.Repeat < 2 then runOnce setter clk fuel a lights t k
    else runRepeatN setter clk fuel a.Repeat.toNat a lights t k

/-- `Action.asTask` from `src/actions/actions.go`: resolve the target
set (explicit non-empty `Lights` override, else the ambient default),
then lower to parallel, series, gradient, immediate patch, or sleep, in
that priority order.  A malformed gradient (empty keyframes, or first
offset not 0) panics at compile time — status `panicked`. -/
def runOnce (setter : Setter) (clk : Clock) (fuel : ℕ) (a : Action)
    (lights : List ℤ) (t : ℤ) (k : ℕ) : ExecOut :=
  match fuel with
  | 0 => ⟨[], t, k, .out⟩
  | fuel + 1 =>
    let lts := if 0 < a.Lights.length then a.Lights else lights
    if a.Parallel.length > 0 then runPar setter clk fuel a.Parallel lts t k
    else if a.Series.length > 0 then runSeq setter clk fuel a.Series lts t k
    else
      match a.G with
      | some g =>
        if g.Cds.length = 0 ∨ (g.Cds.getD 0 default).D ≠ 0 then ⟨[], t, k, .panicked⟩
        else
          let r := doGradient setter clk g a.On lts t k fuel
          ⟨r.reqs, t + r.currentD, r.k, r.status⟩
      | none =>
        if a.C.valid || a.Bri.valid || a.On || a.Off then
          let ms := doOnOff setter a lts t
          ⟨ms.1, t, k, match ms.2 with | some e => .failed e | none => .ok⟩
        else
          match clk k t a.Sleep with
          | none => ⟨[], t, k, .cancelled⟩
          | some t2 => ⟨[], t2, k + 1, .ok⟩

/-- Modelled from the spec: `tasks.SeriesTasks` (external `tasks`
package, spec §4.3) — run compiled children strictly in list order on
one logical thread, aborting the remaining children on the first
failure or cancellation. -/
def runSeq (setter : Setter) (clk : Clock) (fuel : ℕ) (as : List Action)
    (lights : List ℤ) (t : ℤ) (k : ℕ) : ExecOut :=
  match fuel with
  | 0 => ⟨[], t, k, .out⟩
  | fuel + 1 =>
    match as with
    | [] => ⟨[], t, k, .ok⟩
    | c :: rest =>
      let r := runAction setter clk fuel c lights t k
      match r.status with
      | .ok =>
        let r2 := runSeq setter clk fuel rest lights r.time r.k
        ⟨r.reqs ++ r2.reqs, r2.time, r2.k, r2.status⟩
      | _ => r

/-- Modelled from the spec: `tasks.ParallelTasks` (external `tasks`
package, spec §4.3/§5) — children are independent concurrent units; the
composite succeeds only if all children succeed.  Concurrency is not
shallowly embeddable: each child is run from the composite's entry time
and suspension index, requests are listed in child order (no ordering
between siblings is asserted by any claim), the first non-ok child in
list order supplies the status, and the composite's end time is the
latest child end time. -/
def runPar (setter : Setter) (clk : Clock) (fuel : ℕ) (as : List Action)
    (lights : List ℤ) (t : ℤ) (k : ℕ) : ExecOut :=
  match fuel with
  | 0 => ⟨[], t, k, .out⟩
  | fuel + 1 =>
    match as with
    | [] => ⟨[], t, k, .ok⟩
    | c :: rest =>
      let r := runAction setter clk fuel c lights t k
      let r2 := runPar setter clk fuel rest lights t k
      ⟨r.reqs ++ r2.reqs, max r.time r2.time, max r.k r2.k,
        match r.status with | .ok => r2.status | s => s⟩

/-- Modelled from the spec: `tasks.RepeatingTask` (external `tasks`
package, spec §4.3) — compile the node's single-iteration body once,
execute it sequentially `n` times, aborting the remaining repetitions
on the first iteration's failure. -/
def runRepeatN (setter : Setter) (clk : Clock) (fuel : ℕ) (n : ℕ) (a : Action)
    (lights : List ℤ) (t : ℤ) (k : ℕ) : ExecOut :=
  match fuel with
  | 0 => ⟨[], t, k, .out⟩
  | fuel + 1 =>
    match n with
    | 0 => ⟨[], t, k, .ok⟩
    | n + 1 =>
      let r := runOnce setter clk fuel a lights t k
      match r.status with
      | .ok =>
        let r2 := runRepeatN setter clk fuel n a lights r.time r.k
        ⟨r.reqs ++ r2.reqs, r2.time, r2.k, r2.status⟩
      | _ => r

end

end Actions

/-! ## Quantization lemmas for the color model -/

/-- Rounding to the nearest fixed-point unit leaves values that are
already whole units unchanged: `uint16(float64(n)/maxu16*maxu16 + 0.5) = n`. -/
lemma round_unit (n : ℕ) : (⌊((n : ℚ) / maxu16) * maxu16 + 1/2⌋).toNat = n := by
  have h : ((n : ℚ) / maxu16) * maxu16 = (n : ℚ) := by
    rw [div_mul_cancel₀]
    norm_num [maxu16]
  rw [h]
  have h2 : ((n : ℚ) + 1/2) = ((n : ℤ) : ℚ) + 1/2 := by push_cast; ring
  rw [h2, Int.floor_int_add]
  norm_num

/-- Round-to-nearest moves a nonnegative value by at most `1/2`. -/
lemma round_err (w : ℚ) (hw : 0 ≤ w) : |((⌊w + 1/2⌋).toNat : ℚ) - w| ≤ 1/2 := by
  have hge : (0 : ℤ) ≤ ⌊w + 1/2⌋ := by
    have : (0 : ℚ) ≤ w + 1/2 := by linarith
    exact Int.floor_nonneg.mpr this
  have hcast : ((⌊w + 1/2⌋.toNat : ℕ) : ℚ) = ((⌊w + 1/2⌋ : ℤ) : ℚ) := by
    exact_mod_cast congrArg (Int.cast : ℤ → ℚ) (Int.toNat_of_nonneg hge)
  rw [hcast, abs_le]
  have h1 : ((⌊w + 1/2⌋ : ℤ) : ℚ) ≤ w + 1/2 := Int.floor_le _
  have h2 : w + 1/2 < ((⌊w + 1/2⌋ : ℤ) : ℚ) + 1 := Int.lt_floor_add_one _
  constructor <;> linarith

/-- Color coordinates are nonnegative. -/
lemma colorX_nonneg (c : Color) : 0 ≤ c.X := by
  unfold Color.X maxu16
  positivity

/-- Color coordinates are nonnegative. -/
lemma colorY_nonneg (c : Color) : 0 ≤ c.Y := by
  unfold Color.Y maxu16
  positivity

/-- C8: For all colors `a` and `b`: `Blend(a,b,0) = a`, `Blend(a,b,1) = b`,
and for every ratio `r ∈ [0,1]` each coordinate of `Blend(a,b,r)` differs
from the exact convex combination `(1-r)·a + r·b` of the corresponding
coordinates by at most one quantization unit `1/10000`. -/
theorem blend_endpoints_and_quantization (a b : Color) (r : ℚ) :
    a.Blend b 0 = a ∧ a.Blend b 1 = b ∧
    (0 ≤ r → r ≤ 1 →
      |(a.Blend b r).X - ((1 - r) * a.X + r * b.X)| ≤ 1/10000 ∧
      |(a.Blend b r).Y - ((1 - r) * a.Y + r * b.Y)| ≤ 1/10000) := by
  obtain ⟨ax, ay⟩ := a
  obtain ⟨bx, by'⟩ := b
  refine ⟨?_, ?_, ?_⟩
  · show NewColor _ _ = _
    simp only [Color.X, Color.Y, NewColor]
    norm_num
    exact ⟨round_unit ax, round_unit ay⟩
  · show NewColor _ _ = _
    simp only [Color.X, Color.Y, NewColor]
    norm_num
    exact ⟨round_unit bx, round_unit by'⟩
  · intro h0 h1
    have hxa : (0 : ℚ) ≤ (ax : ℚ) / maxu16 := by unfold maxu16; positivity
    have hxb : (0 : ℚ) ≤ (bx : ℚ) / maxu16 := by unfold maxu16; positivity
    have hya : (0 : ℚ) ≤ (ay : ℚ) / maxu16 := by unfold maxu16; positivity
    have hyb : (0 : ℚ) ≤ (by' : ℚ) / maxu16 := by unfold maxu16; positivity
    have hr' : (0 : ℚ) ≤ 1 - r := by linarith
    constructor
    · show |((⌊(((ax : ℚ) / maxu16) * (1 - r) + ((bx : ℚ) / maxu16) * r) * maxu16 + 1/2⌋).toNat : ℚ) / maxu16 - _| ≤ 1/10000
      have hw : (0 : ℚ) ≤ (((ax : ℚ) / maxu16) * (1 - r) + ((bx : ℚ) / maxu16) * r) * maxu16 := by
        apply mul_nonneg
        · exact add_nonneg (mul_nonneg hxa hr') (mul_nonneg hxb h0)
        · norm_num [maxu16]
      have herr := round_err _ hw
      simp only [Color.X] at *
      unfold maxu16 at *
      rw [abs_le] at herr ⊢
      constructor <;> linarith [herr.1, herr.2]
    · show |((⌊(((ay : ℚ) / maxu16) * (1 - r) + ((by' : ℚ) / maxu16) * r) * maxu16 + 1/2⌋).toNat : ℚ) / maxu16 - _| ≤ 1/10000
      have hw : (0 : ℚ) ≤ (((ay : ℚ) / maxu16) * (1 - r) + ((by' : ℚ) / maxu16) * r) * maxu16 := by
        apply mul_nonneg
        · exact add_nonneg (mul_nonneg hya hr') (mul_nonneg hyb h0)
        · norm_num [maxu16]
      have herr := round_err _ hw
      simp only [Color.Y] at *
      unfold maxu16 at *
      rw [abs_le] at herr ⊢
      constructor <;> linarith [herr.1, herr.2]

/-- Witness for `blend_endpoints_and_quantization` at concrete inputs. -/
theorem blend_endpoints_and_quantization_witness :
    (0 : ℚ) ≤ 1/2 ∧ (1/2 : ℚ) ≤ 1 ∧
    (|((NewColor 0.3 0.2).Blend (NewColor 0.2 0.6) (1/2)).X -
        ((1 - 1/2) * (NewColor 0.3 0.2).X + (1/2) * (NewColor 0.2 0.6).X)| ≤ 1/10000) := by
  refine ⟨by norm_num, by norm_num, ?_⟩
  exact ((blend_endpoints_and_quantization (NewColor 0.3 0.2) (NewColor 0.2 0.6) (1/2)).2.2
    (by norm_num) (by norm_num)).1

/-! ## Optional-blend and dispatcher theorems -/

/-- C7: The optional blends used during curve interpolation return the
genuine blend of the two carried values when both operands are present,
and return the first operand unchanged (including when the first
operand is absent) whenever either operand is absent — for colors and
likewise for brightness. -/
theorem optional_blend_hold_rule (f s : MaybeColor) (fb sb : MaybeUint8) (r : ℚ) :
    (f.valid = true → s.valid = true →
      maybeBlendColor f s r = NewMaybeColor (f.color.Blend s.color r)) ∧
    (f.valid = false ∨ s.valid = false → maybeBlendColor f s r = f) ∧
    (fb.valid = true → sb.valid = true →
      maybeBlendBrightness fb sb r =
        NewUint8 (⌊(1 - r) * (fb.value : ℚ) + r * (sb.value : ℚ) + 1/2⌋).toNat) ∧
    (fb.valid = false ∨ sb.valid = false → maybeBlendBrightness fb sb r = fb) := by
  refine ⟨?_, ?_, ?_, ?_⟩
  · intro hf hs
    simp [maybeBlendColor, hf, hs]
  · intro h
    rcases h with h | h <;> simp [maybeBlendColor, h]
  · intro hf hs
    simp [maybeBlendBrightness, hf, hs]
  · intro h
    rcases h with h | h <;> simp [maybeBlendBrightness, h]

/-- Witness for `optional_blend_hold_rule` at concrete inputs: a
present/present color pair blends, an absent/present color pair holds
the first operand, and likewise for brightness. -/
theorem optional_blend_hold_rule_witness :
    (maybeBlendColor (NewMaybeColor (NewColor 0.2 0.1)) (NewMaybeColor (NewColor 0.3 0.3)) (1/2) =
      NewMaybeColor ((NewColor 0.2 0.1).Blend (NewColor 0.3 0.3) (1/2))) ∧
    (maybeBlendColor ⟨⟨7, 8⟩, false⟩ (NewMaybeColor (NewColor 0.3 0.3)) (1/2) = ⟨⟨7, 8⟩, false⟩) ∧
    (maybeBlendBrightness (NewUint8 10) (NewUint8 20) (1/2) =
      NewUint8 (⌊(1 - (1/2 : ℚ)) * ((NewUint8 10).value : ℚ) + (1/2 : ℚ) * ((NewUint8 20).value : ℚ) + 1/2⌋).toNat) ∧
    (maybeBlendBrightness ⟨42, false⟩ (NewUint8 20) (1/2) = ⟨42, false⟩) := by
  refine ⟨?_, ?_, ?_, ?_⟩
  · exact (optional_blend_hold_rule (NewMaybeColor (NewColor 0.2 0.1))
      (NewMaybeColor (NewColor 0.3 0.3)) (NewUint8 10) (NewUint8 20) (1/2)).1 rfl rfl
  · exact (optional_blend_hold_rule ⟨⟨7, 8⟩, false⟩
      (NewMaybeColor (NewColor 0.3 0.3)) (NewUint8 10) (NewUint8 20) (1/2)).2.1 (Or.inl rfl)
  · exact (optional_blend_hold_rule (NewMaybeColor (NewColor 0.2 0.1))
      (NewMaybeColor (NewColor 0.3 0.3)) (NewUint8 10) (NewUint8 20) (1/2)).2.2.1 rfl rfl
  · exact (optional_blend_hold_rule (NewMaybeColor (NewColor 0.2 0.1))
      (NewMaybeColor (NewColor 0.3 0.3)) ⟨42, false⟩ (NewUint8 20) (1/2)).2.2.2 (Or.inl rfl)

/-- The invalid-target failure `multiSet` raises locally when sentinel
id 0 appears in a non-empty explicit target list:
`fixError(0, kInvalidLightIdBytes, gohue.NoSuchResourceError)`. -/
def invalidTargetError : ActionError :=
  fixError 0 kInvalidLightIdBytes GoError.noSuchResource

/-- A Setter that always succeeds with an empty response. -/
def okSetter : Setter := fun _ _ => ("", none)

/-- A Setter that always fails with `gohue.NoSuchResourceError` and raw
response `"Invalid light id"`. -/
def nsrSetter : Setter := fun _ _ => (kInvalidLightIdBytes, some GoError.noSuchResource)

/-- C4: Dispatching one patch to the explicit target list `{1,0,2}`
with a Setter that succeeds on id 1 makes exactly one Setter call (to
id 1), then fails with the invalid-target error; ids 0 and 2 are never
passed to the Setter. -/
theorem dispatch_list_one_zero_two (setter : Setter) (props : LightProperties) (t : ℤ)
    (h : (setter 1 props).2 = none) :
    multiSet setter [1, 0, 2] props t = ([⟨1, props, t⟩], some invalidTargetError) := by
  rcases hs : setter 1 props with ⟨resp, err⟩
  rw [hs] at h
  simp only at h
  subst h
  simp [multiSet, multiSetLoop, hs, invalidTargetError]

/-- Witness for `dispatch_list_one_zero_two` with an always-succeeding
Setter. -/
theorem dispatch_list_one_zero_two_witness :
    (okSetter 1 emptyProps).2 = none ∧
    multiSet okSetter [1, 0, 2] emptyProps 0 =
      ([⟨1, emptyProps, 0⟩], some invalidTargetError) :=
  ⟨rfl, dispatch_list_one_zero_two okSetter emptyProps 0 rfl⟩

/-- C5 counterexample: the invalid-target failure is *not* a third
error kind distinct from the unknown-light-id kind.  The error raised
locally for target list `{1,0,2}` is literally the same value —
`NoSuchLightIdError{LightId: 0, RawResponse: "Invalid light id"}` — as
the error produced when a Setter itself reports
`gohue.NoSuchResourceError` with that raw response on a broadcast
dispatch. -/
theorem invalid_target_not_third_kind :
    (multiSet okSetter [1, 0, 2] emptyProps 0).2 =
      some (ActionError.noSuchLightId 0 "Invalid light id") ∧
    (multiSet nsrSetter [] emptyProps 0).2 =
      some (ActionError.noSuchLightId 0 "Invalid light id") := by
  constructor <;> rfl

/-- C5 (amended): whenever sentinel id 0 occurs in a non-empty explicit
target list (all earlier ids nonzero and successful), the failure is
raised locally by the dispatcher — the Setter is called only for the
ids before the sentinel, never for id 0 or later ids — and the error is
distinct from the opaque transport-failure kind, being reported as the
unknown-light-id kind with id 0 and raw response `"Invalid light id"`. -/
theorem invalid_target_raised_locally (setter : Setter) (props : LightProperties) (t : ℤ)
    (pre suf : List ℤ) (hpre : ∀ l ∈ pre, l ≠ 0 ∧ (setter l props).2 = none) :
    multiSet setter (pre ++ 0 :: suf) props t =
      (pre.map (fun l => ⟨l, props, t⟩), some invalidTargetError) ∧
    invalidTargetError = ActionError.noSuchLightId 0 kInvalidLightIdBytes := by
  refine ⟨?_, rfl⟩
  have main : ∀ pre : List ℤ, (∀ l ∈ pre, l ≠ 0 ∧ (setter l props).2 = none) →
      multiSetLoop setter (pre ++ 0 :: suf) props t =
        (pre.map (fun l => ⟨l, props, t⟩), some invalidTargetError) := by
    intro pre
    induction pre with
    | nil =>
      intro _
      simp [multiSetLoop, invalidTargetError]
    | cons l rest ih =>
      intro hp
      obtain ⟨hl0, hls⟩ := hp l (List.mem_cons_self l rest)
      rcases hs : setter l props with ⟨resp, err⟩
      rw [hs] at hls
      simp only at hls
      subst hls
      simp only [List.cons_append, multiSetLoop, hl0, if_neg hl0, hs, List.append_eq]
      rw [ih (fun x hx => hp x (List.mem_cons_of_mem l hx))]
      simp
  rcases pre with _ | ⟨p, rest⟩
  · simp only [List.nil_append]
    rw [show multiSet setter (0 :: suf) props t = multiSetLoop setter (0 :: suf) props t from rfl]
    exact main [] (by simp)
  · rw [show multiSet setter ((p :: rest) ++ 0 :: suf) props t =
        multiSetLoop setter ((p :: rest) ++ 0 :: suf) props t from rfl]
    exact main (p :: rest) hpre

/-- Witness for `invalid_target_raised_locally` at `pre = [1]`,
`suf = [2]` with an always-succeeding Setter. -/
theorem invalid_target_raised_locally_witness :
    (∀ l ∈ [(1 : ℤ)], l ≠ 0 ∧ (okSetter l emptyProps).2 = none) ∧
    multiSet okSetter ([1] ++ 0 :: [2]) emptyProps 0 =
      ([⟨1, emptyProps, 0⟩], some invalidTargetError) :=
  ⟨by decide, (invalid_target_raised_locally okSetter emptyProps 0 [1] [2] (by decide)).1⟩

/-! ## Gradient execution: the concrete two-keyframe curve -/

/-- The deterministic test clock (`tasks.ClockForTesting`): every
suspension of duration `d` advances the current time by exactly `d` and
never reports cancellation. -/
def clkExact : Clock := fun _ t d => some (t + d)

/-- An absent brightness (the zero value of `maybe.Uint8`). -/
def noBri : MaybeUint8 := ⟨0, false⟩

/-- The gradient of claim C1 (and of test `TestGradient2`): keyframes
`(0.2,0.1)` at offset 0 and `(0.3,0.3)` at offset 1000, refresh 600. -/
def gC1 : Gradient :=
  ⟨[⟨NewMaybeColor (NewColor 0.2 0.1), noBri, 0⟩,
    ⟨NewMaybeColor (NewColor 0.3 0.3), noBri, 1000⟩], 600⟩

/-- A patch that sets only a color. -/
def patchOfColor (c : Color) : LightProperties :=
  ⟨NewMaybeColor c, ⟨0, false⟩, ⟨false, false⟩, ⟨0, false⟩⟩

/-- C1: For the gradient with keyframes `[(0.2,0.1)@0, (0.3,0.3)@1000]`
and refresh 600, run under the deterministic clock that starts at the
recorded start time and advances by exactly each suspension, the curve
execution dispatches exactly three patches, at elapsed times 0, 600 and
1200, carrying colors `(0.2,0.1)`, `(0.26,0.22)` and `(0.3,0.3)`,
in that order. -/
theorem gradient_two_keyframe_trace :
    doGradient okSetter clkExact gC1 false [] 0 0 5 =
      ⟨[patchOfColor (NewColor 0.2 0.1),
        patchOfColor (NewColor 0.26 0.22),
        patchOfColor (NewColor 0.3 0.3)],
       [⟨0, patchOfColor (NewColor 0.2 0.1), 0⟩,
        ⟨0, patchOfColor (NewColor 0.26 0.22), 600⟩,
        ⟨0, patchOfColor (NewColor 0.3 0.3), 1200⟩],
       1200, 2, .ok, true⟩ := by
  norm_num [doGradient, gradLoop, multiSet, okSetter, clkExact, gC1, patchOfColor,
    maybeBlendColor, maybeBlendBrightness, NewMaybeColor, Color.Blend, Color.X, Color.Y,
    NewColor, maxu16, MaybeBool.cleared, emptyProps, List.getD, noBri]
  simp only [Int.reduceToNat]
  norm_num
  simp

/-! ## Gradient loop invariants: the `On` field -/

/-- Once the loop's `properties.On` is cleared, every patch the
keyframe-scanning loop dispatches has a cleared `On`, and on normal
exit the loop's properties still have a cleared `On`. -/
lemma gradLoop_on_cleared (setter : Setter) (clk : Clock) (g : Gradient)
    (lights : List ℤ) (startTime : ℤ) :
    ∀ (fuel : ℕ) (idx : ℕ) (currentD : ℤ) (props : LightProperties) (k : ℕ),
      props.On = MaybeBool.cleared →
      (∀ p ∈ (gradLoop setter clk g lights startTime fuel idx currentD props k).patches,
        p.On = MaybeBool.cleared) ∧
      (∀ q, (gradLoop setter clk g lights startTime fuel idx currentD props k).status =
          .done q → q.On = MaybeBool.cleared) := by
  intro fuel
  induction fuel with
  | zero =>
    intro idx currentD props k hOn
    simp [gradLoop]
  | succ n ih =>
    intro idx currentD props k hOn
    simp only [gradLoop]
    split
    · split
      · exact ih (idx + 1) currentD props k hOn
      · split
        · constructor
          · intro p hp
            simp at hp
            subst hp
            simpa using hOn
          · intro q hq
            simp at hq
        · split
          · constructor
            · intro p hp
              simp at hp
              subst hp
              simpa using hOn
            · intro q hq
              simp at hq
          · rename_i t2 hclk
            constructor
            · intro p hp
              simp at hp
              rcases hp with hp | hp
              · subst hp
                simpa using hOn
              · exact (ih idx (t2 - startTime) _ (k + 1) rfl).1 p hp
            · intro q hq
              simp at hq
              exact (ih idx (t2 - startTime) _ (k + 1) rfl).2 q hq
    · constructor
      · intro p hp
        simp at hp
      · intro q hq
        simp at hq
        subst hq
        exact hOn

/-- The first patch the keyframe-scanning loop dispatches carries the
`On` value the loop entered with; every later patch has a cleared `On`;
and on normal exit, the loop's properties keep the entry `On` when no
patch was dispatched and a cleared `On` otherwise. -/
lemma gradLoop_on_first (setter : Setter) (clk : Clock) (g : Gradient)
    (lights : List ℤ) (startTime : ℤ) :
    ∀ (fuel : ℕ) (idx : ℕ) (currentD : ℤ) (props : LightProperties) (k : ℕ),
      ((gradLoop setter clk g lights startTime fuel idx currentD props k).patches = [] →
        ∀ q, (gradLoop setter clk g lights startTime fuel idx currentD props k).status =
          .done q → q.On = props.On) ∧
      (∀ p rest,
        (gradLoop setter clk g lights startTime fuel idx currentD props k).patches = p :: rest →
        p.On = props.On ∧ (∀ x ∈ rest, x.On = MaybeBool.cleared) ∧
        (∀ q, (gradLoop setter clk g lights startTime fuel idx currentD props k).status =
          .done q → q.On = MaybeBool.cleared)) := by
  intro fuel
  induction fuel with
  | zero =>
    intro idx currentD props k
    simp [gradLoop]
  | succ n ih =>
    intro idx currentD props k
    simp only [gradLoop]
    split
    · split
      · exact ih (idx + 1) currentD props k
      · split
        · constructor
          · intro h
            simp at h
          · intro p rest hp
            simp at hp
            obtain ⟨hp1, hp2⟩ := hp
            subst hp1
            subst hp2
            refine ⟨rfl, by simp, ?_⟩
            intro q hq
            simp at hq
        · split
          · constructor
            · intro h
              simp at h
            · intro p rest hp
              simp at hp
              obtain ⟨hp1, hp2⟩ := hp
              subst hp1
              subst hp2
              refine ⟨rfl, by simp, ?_⟩
              intro q hq
              simp at hq
          · rename_i t2 hclk
            constructor
            · intro h
              simp at h
            · intro p rest hp
              simp at hp
              obtain ⟨hp1, hp2⟩ := hp
              subst hp1
              refine ⟨rfl, ?_, ?_⟩
              · intro x hx
                rw [← hp2] at hx
                exact (gradLoop_on_cleared setter clk g lights startTime n idx
                  (t2 - startTime) _ (k + 1) rfl).1 x hx
              · intro q hq
                simp at hq
                exact (gradLoop_on_cleared setter clk g lights startTime n idx
                  (t2 - startTime) _ (k + 1) rfl).2 q hq
    · constructor
      · intro _ q hq
        simp at hq
        subst hq
        rfl
      · intro p rest hp
        simp at hp

/-- C3: For every gradient action with the on flag set, `On = true` is
included only in the very first patch the curve execution dispatches;
no subsequent patch of the same curve execution carries an `On` field. -/
theorem gradient_on_flag_first_patch_only (setter : Setter) (clk : Clock) (g : Gradient)
    (lights : List ℤ) (startTime : ℤ) (k0 fuel : ℕ)
    (_hne : g.Cds ≠ []) (_h0 : (g.Cds.getD 0 default).D = 0) :
    ((doGradient setter clk g true lights startTime k0 fuel).patches ≠ [] →
      (((doGradient setter clk g true lights startTime k0 fuel).patches.headD default).On =
        MaybeBool.set true)) ∧
    (∀ p ∈ (doGradient setter clk g true lights startTime k0 fuel).patches.tail,
      p.On = MaybeBool.cleared) := by
  have hB := gradLoop_on_first setter clk g lights startTime fuel 1 0
    { emptyProps with On := MaybeBool.set true } k0
  simp only [doGradient, if_pos]
  split
  · rcases hps : (gradLoop setter clk g lights startTime fuel 1 0
        { emptyProps with On := MaybeBool.set true } k0).patches with _ | ⟨p, rest⟩
    · simp [hps]
    · obtain ⟨hhead, htail, _⟩ := hB.2 p rest hps
      constructor
      · intro _
        simp [hps, hhead]
      · intro x hx
        simp [hps] at hx
        exact htail x hx
  · rcases hps : (gradLoop setter clk g lights startTime fuel 1 0
        { emptyProps with On := MaybeBool.set true } k0).patches with _ | ⟨p, rest⟩
    · simp [hps]
    · obtain ⟨hhead, htail, _⟩ := hB.2 p rest hps
      constructor
      · intro _
        simp [hps, hhead]
      · intro x hx
        simp [hps] at hx
        exact htail x hx
  · rcases hps : (gradLoop setter clk g lights startTime fuel 1 0
        { emptyProps with On := MaybeBool.set true } k0).patches with _ | ⟨p, rest⟩
    · simp [hps]
    · obtain ⟨hhead, htail, _⟩ := hB.2 p rest hps
      constructor
      · intro _
        simp [hps, hhead]
      · intro x hx
        simp [hps] at hx
        exact htail x hx
  · rename_i q hq
    rcases hps : (gradLoop setter clk g lights startTime fuel 1 0
        { emptyProps with On := MaybeBool.set true } k0).patches with _ | ⟨p, rest⟩
    · have hqOn := hB.1 hps q hq
      simp [hps, hqOn]
    · obtain ⟨hhead, htail, hdone⟩ := hB.2 p rest hps
      have hqOn := hdone q hq
      constructor
      · intro _
        simp [hps, hhead]
      · intro x hx
        simp [hps] at hx
        rcases hx with hx | hx
        · exact htail x hx
        · subst hx
          simpa using hqOn

/-- Witness for `gradient_on_flag_first_patch_only` at the concrete
two-keyframe gradient under the deterministic clock. -/
theorem gradient_on_flag_witness :
    (gC1.Cds ≠ [] ∧ (gC1.Cds.getD 0 default).D = 0) ∧
    (((doGradient okSetter clkExact gC1 true [] 0 0 5).patches ≠ [] →
      (((doGradient okSetter clkExact gC1 true [] 0 0 5).patches.headD default).On =
        MaybeBool.set true)) ∧
     (∀ p ∈ (doGradient okSetter clkExact gC1 true [] 0 0 5).patches.tail,
       p.On = MaybeBool.cleared)) := by
  have hne : gC1.Cds ≠ [] := by simp [gC1]
  have h0 : (gC1.Cds.getD 0 default).D = 0 := by simp [gC1, List.getD]
  exact ⟨⟨hne, h0⟩, gradient_on_flag_first_patch_only okSetter clkExact gC1 [] 0 0 5 hne h0⟩

/-! ## The final dispatch of a gradient (claim C2) -/

/-- C2 (amended): For every gradient whose keyframe list is non-empty
and whose first keyframe has offset 0, when the keyframe-scanning loop
exits normally, one final patch is dispatched unconditionally, built
from the last keyframe's color and brightness verbatim.  That final
patch carries no `On` field whenever at least one patch was dispatched
inside the loop (or the on flag is unset); when the loop dispatched no
patch, the final patch carries `On = true` exactly when the gradient
action's on flag is set. -/
theorem gradient_final_patch_last_keyframe (setter : Setter) (clk : Clock) (g : Gradient)
    (aOn : Bool) (lights : List ℤ) (startTime : ℤ) (k0 fuel : ℕ)
    (_hne : g.Cds ≠ []) (_h0 : (g.Cds.getD 0 default).D = 0)
    (hdone : (doGradient setter clk g aOn lights startTime k0 fuel).loopDone = true) :
    ∃ pre fin,
      (doGradient setter clk g aOn lights startTime k0 fuel).patches = pre ++ [fin] ∧
      fin.C = (g.Cds.getD (g.Cds.length - 1) default).C ∧
      fin.Bri = (g.Cds.getD (g.Cds.length - 1) default).Bri ∧
      (pre ≠ [] → fin.On = MaybeBool.cleared) ∧
      (pre = [] → fin.On = (if aOn then MaybeBool.set true else MaybeBool.cleared)) := by
  have hB := gradLoop_on_first setter clk g lights startTime fuel 1 0
    (if aOn then { emptyProps with On := MaybeBool.set true } else emptyProps) k0
  rcases hst : (gradLoop setter clk g lights startTime fuel 1 0
      (if aOn then { emptyProps with On := MaybeBool.set true } else emptyProps) k0).status
    with _ | e | _ | q
  · simp [doGradient, hst] at hdone
  · simp [doGradient, hst] at hdone
  · simp [doGradient, hst] at hdone
  · refine ⟨(gradLoop setter clk g lights startTime fuel 1 0
      (if aOn then { emptyProps with On := MaybeBool.set true } else emptyProps) k0).patches,
      { q with C := (g.Cds.getD (g.Cds.length - 1) default).C,
               Bri := (g.Cds.getD (g.Cds.length - 1) default).Bri }, ?_, rfl, rfl, ?_, ?_⟩
    · simp [doGradient, hst]
    · intro hpre
      rcases hps : (gradLoop setter clk g lights startTime fuel 1 0
          (if aOn then { emptyProps with On := MaybeBool.set true } else emptyProps) k0).patches
        with _ | ⟨p, rest⟩
      · exact absurd hps hpre
      · obtain ⟨_, _, hdoneOn⟩ := hB.2 p rest hps
        simpa using hdoneOn q hst
    · intro hpre
      have hq := hB.1 hpre q hst
      rcases haOn : aOn with _ | _
      · rw [haOn] at hq
        simpa [emptyProps, MaybeBool.cleared] using hq
      · rw [haOn] at hq
        simpa [MaybeBool.set] using hq

/-- A single-keyframe gradient used to refute the unconditional "no
`On` on the final patch" reading of claim C2. -/
def gSingle : Gradient := ⟨[⟨NewMaybeColor (NewColor 0.2 0.1), NewUint8 5, 0⟩], 7⟩

/-- C2 counterexample: for the single-keyframe gradient with the on
flag set, the loop exits normally having dispatched nothing, and the
final patch — the only patch of the run — carries `On = true`,
contradicting the claim that the final patch carries no `On` field. -/
theorem gradient_final_patch_on_cex :
    (doGradient okSetter clkExact gSingle true [] 0 0 2).loopDone = true ∧
    (doGradient okSetter clkExact gSingle true [] 0 0 2).status = .ok ∧
    (doGradient okSetter clkExact gSingle true [] 0 0 2).patches =
      [⟨NewMaybeColor (NewColor 0.2 0.1), NewUint8 5, MaybeBool.set true, ⟨0, false⟩⟩] := by
  norm_num [doGradient, gradLoop, multiSet, okSetter, clkExact, gSingle,
    NewMaybeColor, MaybeBool.set, emptyProps, List.getD, NewUint8]

/-- A single-keyframe gradient with the on flag unset, used as the
witness input for `gradient_final_patch_last_keyframe`. -/
def gW : Gradient := ⟨[⟨NewMaybeColor (NewColor 0.3 0.3), NewUint8 30, 0⟩], 9⟩

/-- Witness for `gradient_final_patch_last_keyframe` at a concrete
single-keyframe gradient with the on flag unset. -/
theorem gradient_final_patch_last_keyframe_witness :
    (gW.Cds ≠ [] ∧ (gW.Cds.getD 0 default).D = 0 ∧
      (doGradient okSetter clkExact gW false [] 0 0 2).loopDone = true) ∧
    (∃ pre fin,
      (doGradient okSetter clkExact gW false [] 0 0 2).patches = pre ++ [fin] ∧
      fin.C = (gW.Cds.getD (gW.Cds.length - 1) default).C ∧
      fin.Bri = (gW.Cds.getD (gW.Cds.length - 1) default).Bri ∧
      (pre ≠ [] → fin.On = MaybeBool.cleared) ∧
      (pre = [] → fin.On = (if false then MaybeBool.set true else MaybeBool.cleared))) := by
  have hne : gW.Cds ≠ [] := by simp [gW]
  have h0 : (gW.Cds.getD 0 default).D = 0 := by simp [gW, List.getD]
  have hdone : (doGradient okSetter clkExact gW false [] 0 0 2).loopDone = true := by
    norm_num [doGradient, gradLoop, multiSet, okSetter, clkExact, gW, emptyProps, List.getD]
  exact ⟨⟨hne, h0, hdone⟩,
    gradient_final_patch_last_keyframe okSetter clkExact gW false [] 0 0 2 hne h0 hdone⟩

/-! ## Termination of the gradient loop (claim C10) -/

/-- The largest keyframe offset of a gradient (0 when empty). -/
def maxOffset (g : Gradient) : ℤ := (g.Cds.map ColorDuration.D).foldr max 0

/-- Every element of a list of integers is at most the `max`-fold of
the list over 0. -/
lemma le_foldr_max (l : List ℤ) : ∀ x ∈ l, x ≤ l.foldr max 0 := by
  induction l with
  | nil => simp
  | cons a as ih =>
    intro x hx
    rcases List.mem_cons.mp hx with h | h
    · subst h
      exact le_max_left _ _
    · exact le_trans (ih x h) (le_max_right _ _)

/-- Every keyframe offset is at most `maxOffset`. -/
lemma offset_le_maxOffset (g : Gradient) (i : ℕ) (h : i < g.Cds.length) :
    (g.Cds.getD i default).D ≤ maxOffset g := by
  apply le_foldr_max
  rw [List.getD_eq_getElem?_getD, List.getElem?_eq_getElem h]
  exact List.mem_map_of_mem ColorDuration.D (List.getElem_mem h)

/-- With a strictly positive refresh interval and a clock whose
suspensions advance time by at least the requested duration, the
keyframe-scanning loop never exhausts a fuel budget exceeding
`length - idx + (maxOffset - currentD)⁺`: every iteration either
advances the keyframe index or advances elapsed time by at least one
towards the largest offset. -/
lemma gradLoop_no_out (setter : Setter) (clk : Clock) (g : Gradient)
    (lights : List ℤ) (startTime : ℤ)
    (hrefresh : 1 ≤ g.Refresh)
    (hclk : ∀ k t d t2, clk k t d = some t2 → t + d ≤ t2) :
    ∀ (fuel idx : ℕ) (currentD : ℤ) (props : LightProperties) (k : ℕ),
      g.Cds.length - idx + (maxOffset g - currentD).toNat < fuel →
      (gradLoop setter clk g lights startTime fuel idx currentD props k).status ≠ .out := by
  intro fuel
  induction fuel with
  | zero =>
    intro idx currentD props k h
    omega
  | succ n ih =>
    intro idx currentD props k h
    simp only [gradLoop]
    split
    · rename_i hidx
      split
      · rename_i hskip
        exact ih (idx + 1) currentD props k (by omega)
      · rename_i hlt
        split
        · simp
        · split
          · simp
          · rename_i t2 hclk2
            have hD : currentD < (g.Cds.getD idx default).D := lt_of_not_ge hlt
            have hM : (g.Cds.getD idx default).D ≤ maxOffset g := offset_le_maxOffset g idx hidx
            have ht2 : startTime + currentD + g.Refresh ≤ t2 :=
              hclk k (startTime + currentD) g.Refresh t2 hclk2
            exact ih idx (t2 - startTime) _ (k + 1) (by omega)
    · simp

/-- C10: For every gradient with finitely many keyframes, a strictly
positive refresh interval, and a clock in which every suspension of
duration `d` advances the current time by at least `d`, the gradient
execution terminates: the fuel budget `length + maxOffset⁺ + 1` is
never exhausted, so the run makes finitely many Setter calls. -/
theorem gradient_terminating (setter : Setter) (clk : Clock) (g : Gradient)
    (aOn : Bool) (lights : List ℤ) (startTime : ℤ) (k0 : ℕ)
    (hrefresh : 1 ≤ g.Refresh)
    (hclk : ∀ k t d t2, clk k t d = some t2 → t + d ≤ t2) :
    (doGradient setter clk g aOn lights startTime k0
      (g.Cds.length + (maxOffset g).toNat + 1)).status ≠ .out := by
  have hloop := gradLoop_no_out setter clk g lights startTime hrefresh hclk
    (g.Cds.length + (maxOffset g).toNat + 1) 1 0
    (if aOn then { emptyProps with On := MaybeBool.set true } else emptyProps) k0 (by omega)
  rcases hst : (gradLoop setter clk g lights startTime
      (g.Cds.length + (maxOffset g).toNat + 1) 1 0
      (if aOn then { emptyProps with On := MaybeBool.set true } else emptyProps) k0).status
    with _ | e | _ | q
  · exact absurd hst hloop
  · simp [doGradient, hst]
  · simp [doGradient, hst]
  · simp only [doGradient, hst]
    split <;> simp

/-- Witness for `gradient_terminating` at the concrete two-keyframe
gradient under the deterministic clock. -/
theorem gradient_terminating_witness :
    ((1 : ℤ) ≤ gC1.Refresh ∧ (∀ k t d t2, clkExact k t d = some t2 → t + d ≤ t2)) ∧
    (doGradient okSetter clkExact gC1 false [] 0 0
      (gC1.Cds.length + (maxOffset gC1).toNat + 1)).status ≠ .out := by
  have h1 : (1 : ℤ) ≤ gC1.Refresh := by norm_num [gC1]
  have h2 : ∀ k t d t2, clkExact k t d = some t2 → t + d ≤ t2 := by
    intro k t d t2 h
    simp only [clkExact, Option.some_inj] at h
    omega
  exact ⟨⟨h1, h2⟩, gradient_terminating okSetter clkExact gC1 false [] 0 0 h1 h2⟩

/-! ## Target resolution (claim C6) and repeat abort (claim C9) -/

namespace Actions

/-- The effective light set of a node (spec §3): the node's own
explicit `Lights` override when non-empty, else the ambient default
inherited from its parent. -/
def effLights (a : Action) (ambient : List ℤ) : List ℤ :=
  if 0 < a.Lights.length then a.Lights else ambient

/-- A node body's execution depends on the ambient light set only
through its effective light set. -/
lemma runOnce_effLights (setter : Setter) (clk : Clock) (fuel : ℕ) (a : Action)
    (lights : List ℤ) (t : ℤ) (k : ℕ) :
    runOnce setter clk fuel a lights t k = runOnce setter clk fuel a (effLights a lights) t k := by
  cases fuel with
  | zero => simp only [runOnce]
  | succ n =>
    simp only [runOnce, effLights]
    by_cases h : 0 < a.Lights.length <;> simp [h]

/-- The repeat combinator preserves `runOnce_effLights`. -/
lemma runRepeatN_effLights (setter : Setter) (clk : Clock) :
    ∀ (fuel n : ℕ) (a : Action) (lights : List ℤ) (t : ℤ) (k : ℕ),
      runRepeatN setter clk fuel n a lights t k =
      runRepeatN setter clk fuel n a (effLights a lights) t k := by
  intro fuel
  induction fuel with
  | zero =>
    intro n a lights t k
    simp only [runRepeatN]
  | succ m ih =>
    intro n a lights t k
    cases n with
    | zero => simp only [runRepeatN]
    | succ n2 =>
      simp only [runRepeatN]
      rw [← runOnce_effLights setter clk m a lights t k]
      rw [← ih n2 a lights]

/-- A compiled node's execution depends on the ambient light set only
through its effective light set. -/
lemma runAction_effLights (setter : Setter) (clk : Clock) (fuel : ℕ) (a : Action)
    (lights : List ℤ) (t : ℤ) (k : ℕ) :
    runAction setter clk fuel a lights t k =
      runAction setter clk fuel a (effLights a lights) t k := by
  cases fuel with
  | zero => simp only [runAction]
  | succ n =>
    simp only [runAction]
    by_cases h : a.Repeat < 2
    · simp only [if_pos h]
      exact runOnce_effLights setter clk n a lights t k
    · simp only [if_neg h]
      exact runRepeatN_effLights setter clk n a.Repeat.toNat a lights t k

end Actions

/-- C6: For every action node, the effective light set used for its
dispatches is its own explicit `Lights` override when that override is
non-empty and otherwise the ambient default inherited from its parent:
executing a node under an ambient default is the same as executing it
under its effective light set.  And when the effective set is empty,
each dispatch makes exactly one Setter call, with sentinel light id 0. -/
theorem effective_lights_resolution :
    (∀ (setter : Setter) (clk : Clock) (fuel : ℕ) (a : Actions.Action)
        (lights : List ℤ) (t : ℤ) (k : ℕ),
      Actions.runAction setter clk fuel a lights t k =
        Actions.runAction setter clk fuel a (Actions.effLights a lights) t k) ∧
    (∀ (setter : Setter) (props : LightProperties) (t : ℤ),
      ((multiSet setter [] props t).1).map Request.lightId = [0]) := by
  constructor
  · exact fun setter clk fuel a lights t k =>
      Actions.runAction_effLights setter clk fuel a lights t k
  · intro setter props t
    rcases hs : setter 0 props with ⟨resp, err⟩
    cases err <;> simp [multiSet, hs]

/-- The action of claim C9: an immediate `On = true` patch with
`Repeat = 3` and no other fields. -/
def c9Action : Actions.Action :=
  .mk [] 3 none ⟨⟨0, 0⟩, false⟩ ⟨0, false⟩ true false ⟨0, false⟩ 0 [] []

/-- C9: Executing `Repeat(Immediate(On=true), 3)` against a Setter that
fails on every call makes exactly one Setter call — the first
iteration's failure aborts the remaining repetitions — and the run
fails. -/
theorem repeat_aborts_on_first_failure (setter : Setter) (clk : Clock) (t : ℤ) (k : ℕ)
    (hfail : ∀ id p, ((setter id p).2).isSome = true) :
    (Actions.runAction setter clk 10 c9Action [] t k).reqs =
      [⟨0, ⟨⟨⟨0, 0⟩, false⟩, ⟨0, false⟩, MaybeBool.set true, ⟨0, false⟩⟩, t⟩] ∧
    (∃ e, (Actions.runAction setter clk 10 c9Action [] t k).status = .failed e) := by
  rcases hs : setter 0 ⟨⟨⟨0, 0⟩, false⟩, ⟨0, false⟩, ⟨true, true⟩, ⟨0, false⟩⟩
    with ⟨resp, err⟩
  cases err with
  | none =>
    have := hfail 0 ⟨⟨⟨0, 0⟩, false⟩, ⟨0, false⟩, ⟨true, true⟩, ⟨0, false⟩⟩
    rw [hs] at this
    simp at this
  | some e =>
    constructor
    · simp [Actions.runAction, Actions.runRepeatN, Actions.runOnce, Actions.doOnOff,
        multiSet, c9Action, Actions.Action.Repeat, Actions.Action.Lights,
        Actions.Action.Parallel, Actions.Action.Series, Actions.Action.G,
        Actions.Action.C, Actions.Action.Bri, Actions.Action.On, Actions.Action.Off,
        Actions.Action.TransitionTime, MaybeBool.set, hs]
    · refine ⟨fixError 0 resp e, ?_⟩
      simp [Actions.runAction, Actions.runRepeatN, Actions.runOnce, Actions.doOnOff,
        multiSet, c9Action, Actions.Action.Repeat, Actions.Action.Lights,
        Actions.Action.Parallel, Actions.Action.Series, Actions.Action.G,
        Actions.Action.C, Actions.Action.Bri, Actions.Action.On, Actions.Action.Off,
        Actions.Action.TransitionTime, MaybeBool.set, hs]

/-- A Setter that fails on every call with an opaque error. -/
def failSetter : Setter := fun _ _ => ("goodbye", some (GoError.custom 7))

/-- Witness for `repeat_aborts_on_first_failure` with a concrete
always-failing Setter. -/
theorem repeat_aborts_witness :
    (∀ id p, ((failSetter id p).2).isSome = true) ∧
    ((Actions.runAction failSetter clkExact 10 c9Action [] 0 0).reqs =
      [⟨0, ⟨⟨⟨0, 0⟩, false⟩, ⟨0, false⟩, MaybeBool.set true, ⟨0, false⟩⟩, 0⟩] ∧
     (∃ e, (Actions.runAction failSetter clkExact 10 c9Action [] 0 0).status = .failed e)) := by
  have h : ∀ id p, ((failSetter id p).2).isSome = true := fun _ _ => rfl
  exact ⟨h, repeat_aborts_on_first_failure failSetter clkExact 0 0 h⟩
